import Mathlib

/-!
# Verification of the UnisonAI tool-call pipeline

A shallow embedding of the core of the UnisonAI repository:

* `unisonai/agent.py` — tool-call sanitising (`Agent._sanitize_tool_call`),
  extraction (`Agent.extract_all_tool_calls`), dispatch
  (`Agent.execute_tool_call`), fuzzy name resolution
  (`Agent._get_agent_by_name`), message routing (`Agent.send_message`) and
  the ten-turn agentic loop (`Agent.unleash`);
* `unisonai/tools/tool.py` — parameter validation (`BaseTool.validate_parameters`,
  `BaseTool.run`);
* `unisonai/clan.py` — clan wiring (`Clan.__init__`).

Python strings are modelled as `List Char`/`String`; CPython's `ast.parse`
(mode `eval`) is modelled by an executable recursive-descent parser over the
literal-call fragment the agent exchanges, and is additionally abstracted as
an oracle parameter in the theorems that do not depend on a concrete grammar.
-/

namespace UnisonAI

/-! ## Python whitespace and `str.strip` -/

/-- The ASCII whitespace characters stripped by Python's `str.strip()`
(the model ignores non-ASCII unicode whitespace, which never occurs here). -/
def isPyWs (c : Char) : Bool :=
  c = ' ' || c = '\t' || c = '\n' || c = '\r' || c = '\x0b' || c = '\x0c'

/-- Drop a trailing run of Python whitespace. -/
def dropTrailWs : List Char → List Char
  | [] => []
  | c :: rest =>
    match dropTrailWs rest with
    | [] => if isPyWs c then [] else [c]
    | r => c :: r

/-- Model of Python `str.strip()` on character lists. -/
def pyStripL (l : List Char) : List Char :=
  dropTrailWs (l.dropWhile isPyWs)

/-- Model of Python `str.strip()`. -/
def pyStrip (s : String) : String :=
  ⟨pyStripL s.data⟩

theorem dropTrailWs_cons (a : Char) (rest : List Char) :
    dropTrailWs (a :: rest) =
      match dropTrailWs rest with
      | [] => if isPyWs a then [] else [a]
      | r => a :: r := rfl

theorem dropTrailWs_eq_nil_all_ws :
    ∀ l : List Char, dropTrailWs l = [] → ∀ c ∈ l, isPyWs c = true := by
  intro l
  induction l with
  | nil => intro _ c hc; cases hc
  | cons a rest ih =>
    intro h c hc
    rw [dropTrailWs_cons] at h
    rcases hrest : dropTrailWs rest with _ | ⟨r, rs⟩
    · rw [hrest] at h
      by_cases ha : isPyWs a = true
      · rcases List.mem_cons.mp hc with hc | hc
        · exact hc ▸ ha
        · exact ih hrest c hc
      · simp [ha] at h
    · rw [hrest] at h
      simp at h

theorem dropTrailWs_cons_structure (a : Char) (rest : List Char) :
    dropTrailWs (a :: rest) = [] ∨ ∃ r, dropTrailWs (a :: rest) = a :: r := by
  rw [dropTrailWs_cons]
  rcases dropTrailWs rest with _ | ⟨x, xs⟩
  · by_cases ha : isPyWs a = true
    · left; simp [ha]
    · right; exact ⟨[], by simp [ha]⟩
  · right; exact ⟨x :: xs, rfl⟩

theorem dropTrailWs_idem : ∀ l : List Char, dropTrailWs (dropTrailWs l) = dropTrailWs l := by
  intro l
  induction l with
  | nil => rfl
  | cons a rest ih =>
    rw [dropTrailWs_cons]
    rcases hrest : dropTrailWs rest with _ | ⟨x, xs⟩
    · by_cases ha : isPyWs a = true
      · simp [ha, dropTrailWs]
      · have ha' : isPyWs a = false := by simpa using ha
        simp [ha', dropTrailWs]
    · rw [hrest] at ih
      rw [dropTrailWs_cons, ih]

theorem dropWhile_head_not {p : Char → Bool} :
    ∀ (l : List Char) (c : Char) (r : List Char), l.dropWhile p = c :: r → p c = false := by
  intro l
  induction l with
  | nil => intro c r h; simp [List.dropWhile] at h
  | cons a rest ih =>
    intro c r h
    rw [List.dropWhile_cons] at h
    by_cases ha : p a = true
    · rw [if_pos ha] at h
      exact ih c r h
    · rw [if_neg ha] at h
      cases h
      simpa using ha

theorem pyStripL_idem (l : List Char) : pyStripL (pyStripL l) = pyStripL l := by
  unfold pyStripL
  set m := l.dropWhile isPyWs with hm
  have hdw : (dropTrailWs m).dropWhile isPyWs = dropTrailWs m := by
    rcases hmn : m with _ | ⟨a, rest⟩
    · simp [dropTrailWs]
    · rcases dropTrailWs_cons_structure a rest with h | ⟨r, h⟩
      · simp [h]
      · rw [h]
        have ha : isPyWs a = false := dropWhile_head_not l a rest (hm ▸ hmn)
        simp [List.dropWhile_cons, ha]
  rw [hdw, dropTrailWs_idem]

theorem pyStrip_idem (s : String) : pyStrip (pyStrip s) = pyStrip s := by
  unfold pyStrip
  simp [pyStripL_idem]

/-! ## Python literal values and expression AST

`PyVal` models the Python data reachable by `ast.literal_eval` in this code
base (floats, tuples and sets never occur in the modelled fragment).
`PyExpr` models the `ast` nodes produced by `ast.parse(s, mode='eval')` for
the call expressions the agent exchanges. -/

/-- Python values as produced by `ast.literal_eval` (restricted to the
int/str/bool/None/list/dict fragment used by the agent). -/
inductive PyVal where
  | intV (n : Nat)
  | strV (s : String)
  | boolV (b : Bool)
  | noneV
  | listV (xs : List PyVal)
  | dictV (xs : List (PyVal × PyVal))
deriving Repr

/-- Python expression AST (the fragment of `ast` nodes relevant to tool
calls: constants, names, attributes, calls, lists, dicts). -/
inductive PyExpr where
  | constInt (n : Nat)
  | constStr (s : String)
  | constBool (b : Bool)
  | constNone
  | nameE (id : String)
  | attrE (e : PyExpr) (a : String)
  | callE (f : PyExpr) (args : List PyExpr) (kwargs : List (String × PyExpr))
  | listE (xs : List PyExpr)
  | dictE (xs : List (PyExpr × PyExpr))
deriving Repr

/-! ## Tokenizer

A character-level state machine modelling CPython's eval-mode lexer on the
fragment above.  Like CPython, it rejects a leading-whitespace source
(`IndentationError`, a `SyntaxError` subclass, so caught by the repair
cascade's `except`), accepts trailing whitespace, rejects an unterminated
string and a raw newline inside a string literal, and rejects a digit run
directly followed by an identifier character (`invalid decimal literal`).
Known simplification: a bare newline between tokens is treated as plain
whitespace everywhere, where CPython allows it only inside brackets or
trailing — no claim's input exercises that case, and every theorem
quantifying over call strings abstracts the parser as an oracle. -/

inductive Tok where
  | ident (s : String)
  | num (n : Nat)
  | strTok (s : String)
  | lparen | rparen | comma | eqTok
  | lbrack | rbrack | lbrace | rbrace
  | colon | dot
deriving Repr, DecidableEq

def isIdentStart (c : Char) : Bool := c.isAlpha || c = '_'

def isIdentChar (c : Char) : Bool := c.isAlpha || c.isDigit || c = '_'

def digitsToNat (l : List Char) : Nat :=
  l.foldl (fun n c => 10 * n + (c.toNat - 48)) 0

/-- Lexer state: between tokens, inside an identifier, inside a number,
inside a string (with its quote character), or right after a backslash
inside a string. -/
inductive TokState where
  | start
  | inIdent (acc : List Char)
  | inNum (acc : List Char)
  | inStr (q : Char) (acc : List Char)
  | inStrEsc (q : Char) (acc : List Char)

def identTok (acc : List Char) : Tok := .ident ⟨acc.reverse⟩

def numTok (acc : List Char) : Tok := .num (digitsToNat acc.reverse)

/-- Classify a punctuation character as its token. -/
def punctTok (c : Char) : Option Tok :=
  if c = '(' then some .lparen
  else if c = ')' then some .rparen
  else if c = ',' then some .comma
  else if c = '=' then some .eqTok
  else if c = '[' then some .lbrack
  else if c = ']' then some .rbrack
  else if c = '\x7b' then some .lbrace
  else if c = '\x7d' then some .rbrace
  else if c = ':' then some .colon
  else if c = '.' then some .dot
  else none

/-- Process one character in the between-tokens state. -/
def stepStart (c : Char) : Option (List Tok × TokState) :=
  if isPyWs c then some ([], .start)
  else
    match punctTok c with
    | some t => some ([t], .start)
    | none =>
      if c = '\x22' || c = '\x27' then some ([], .inStr c [])
      else if c.isDigit then some ([], .inNum [c])
      else if isIdentStart c then some ([], .inIdent [c])
      else none

/-- The characters contributed by a string-literal escape `\\d` (Python
keeps unknown escapes verbatim; a backslash-newline is a line
continuation contributing nothing). -/
def escChars (d : Char) : List Char :=
  if d = 'n' then ['\n']
  else if d = 't' then ['\t']
  else if d = 'r' then ['\r']
  else if d = '\\' then ['\\']
  else if d = '\x27' then ['\x27']
  else if d = '\x22' then ['\x22']
  else if d = '\n' then []
  else ['\\', d]

/-- Process one character of the source, emitting zero or more tokens. -/
def step (st : TokState) (c : Char) : Option (List Tok × TokState) :=
  match st with
  | .start => stepStart c
  | .inIdent acc =>
    if isIdentChar c then some ([], .inIdent (c :: acc))
    else
      match stepStart c with
      | some (ts, st') => some (identTok acc :: ts, st')
      | none => none
  | .inNum acc =>
    if c.isDigit then some ([], .inNum (c :: acc))
    else if isIdentStart c then none
    else
      match stepStart c with
      | some (ts, st') => some (numTok acc :: ts, st')
      | none => none
  | .inStr q acc =>
    if c = q then some ([.strTok ⟨acc.reverse⟩], .start)
    else if c = '\n' || c = '\r' then none
    else if c = '\\' then some ([], .inStrEsc q acc)
    else some ([], .inStr q (c :: acc))
  | .inStrEsc q acc => some ([], .inStr q ((escChars c).reverse ++ acc))

/-- Finish lexing at end of source. -/
def finalize : TokState → Option (List Tok)
  | .start => some []
  | .inIdent acc => some [identTok acc]
  | .inNum acc => some [numTok acc]
  | .inStr _ _ => none
  | .inStrEsc _ _ => none

def tokenizeAux : List Char → TokState → Option (List Tok)
  | [], st => finalize st
  | c :: rest, st =>
    match step st c with
    | none => none
    | some (ts, st') =>
      match tokenizeAux rest st' with
      | none => none
      | some ts2 => some (ts ++ ts2)

/-- Tokenize an eval-mode source.  A leading whitespace character is an
`IndentationError` in CPython's eval mode, hence rejected. -/
def tokenize (l : List Char) : Option (List Tok) :=
  match l with
  | [] => some []
  | c :: _ => if isPyWs c then none else tokenizeAux l .start

/-! ## Parser

Fuel-based recursive-descent parser for eval-mode expressions over the
token stream: atoms (constants, names, lists, dicts, parenthesised
expressions) with call and attribute postfixes; keyword arguments; a
positional argument after a keyword argument is rejected as in CPython. -/

mutual

def parseExpr : Nat → List Tok → Option (PyExpr × List Tok)
  | 0, _ => none
  | fuel + 1, toks =>
    match parseAtom fuel toks with
    | none => none
    | some (e, rest) => parsePost fuel e rest

def parseAtom : Nat → List Tok → Option (PyExpr × List Tok)
  | 0, _ => none
  | fuel + 1, toks =>
    match toks with
    | .ident s :: rest =>
      if s = "True" then some (.constBool true, rest)
      else if s = "False" then some (.constBool false, rest)
      else if s = "None" then some (.constNone, rest)
      else some (.nameE s, rest)
    | .num n :: rest => some (.constInt n, rest)
    | .strTok s :: rest => some (.constStr s, rest)
    | .lbrack :: .rbrack :: rest => some (.listE [], rest)
    | .lbrack :: rest =>
      match parseElems fuel rest with
      | some (xs, .rbrack :: rest2) => some (.listE xs, rest2)
      | _ => none
    | .lbrace :: .rbrace :: rest => some (.dictE [], rest)
    | .lbrace :: rest =>
      match parsePairs fuel rest with
      | some (xs, .rbrace :: rest2) => some (.dictE xs, rest2)
      | _ => none
    | .lparen :: rest =>
      match parseExpr fuel rest with
      | some (e, .rparen :: rest2) => some (e, rest2)
      | _ => none
    | _ => none

def parsePost : Nat → PyExpr → List Tok → Option (PyExpr × List Tok)
  | 0, _, _ => none
  | fuel + 1, e, toks =>
    match toks with
    | .lparen :: .rparen :: rest => parsePost fuel (.callE e [] []) rest
    | .lparen :: rest =>
      match parseCallArgs fuel false rest with
      | some ((args, kws), .rparen :: rest2) => parsePost fuel (.callE e args kws) rest2
      | _ => none
    | .dot :: .ident a :: rest => parsePost fuel (.attrE e a) rest
    | _ => some (e, toks)

def parseCallArgs : Nat → Bool → List Tok →
    Option ((List PyExpr × List (String × PyExpr)) × List Tok)
  | 0, _, _ => none
  | fuel + 1, seenKw, toks =>
    match toks with
    | .ident k :: .eqTok :: rest =>
      match parseExpr fuel rest with
      | some (v, .comma :: rest2) =>
        match parseCallArgs fuel true rest2 with
        | some ((args, kws), rest3) => some ((args, (k, v) :: kws), rest3)
        | none => none
      | some (v, rest2) => some (([], [(k, v)]), rest2)
      | none => none
    | _ =>
      if seenKw then none
      else
        match parseExpr fuel toks with
        | some (v, .comma :: rest2) =>
          match parseCallArgs fuel false rest2 with
          | some ((args, kws), rest3) => some ((v :: args, kws), rest3)
          | none => none
        | some (v, rest2) => some (([v], []), rest2)
        | none => none

def parseElems : Nat → List Tok → Option (List PyExpr × List Tok)
  | 0, _ => none
  | fuel + 1, toks =>
    match parseExpr fuel toks with
    | some (e, .comma :: rest) =>
      match parseElems fuel rest with
      | some (xs, rest2) => some (e :: xs, rest2)
      | none => none
    | some (e, rest) => some ([e], rest)
    | none => none

def parsePairs : Nat → List Tok → Option (List (PyExpr × PyExpr) × List Tok)
  | 0, _ => none
  | fuel + 1, toks =>
    match parseExpr fuel toks with
    | some (k, .colon :: rest) =>
      match parseExpr fuel rest with
      | some (v, .comma :: rest2) =>
        match parsePairs fuel rest2 with
        | some (xs, rest3) => some ((k, v) :: xs, rest3)
        | none => none
      | some (v, rest2) => some ([(k, v)], rest2)
      | none => none
    | _ => none

end

/-- Model of CPython `ast.parse(s, mode='eval')` on character lists:
`some` is a successful parse of the whole source to a single expression,
`none` is a `SyntaxError`/`IndentationError`.  The fuel `2 * |toks| + 4`
strictly dominates the recursion depth, every level of which consumes a
token. -/
def pyParseEvalL (l : List Char) : Option PyExpr :=
  match tokenize l with
  | none => none
  | some toks =>
    match parseExpr (2 * toks.length + 4) toks with
    | some (e, []) => some e
    | _ => none

/-- Model of `ast.parse(s, mode='eval')` on strings. -/
def pyParseEval (s : String) : Option PyExpr := pyParseEvalL s.data

/-- `True` iff `ast.parse(s, mode='eval')` succeeds. -/
def pyParses (s : String) : Bool := (pyParseEval s).isSome

/-! ## `ast.literal_eval`

Evaluates constant expressions; names, attribute accesses and calls are
rejected (`ValueError: malformed node or string`) — no code is ever run. -/

mutual

def literalEval : PyExpr → Option PyVal
  | .constInt n => some (.intV n)
  | .constStr s => some (.strV s)
  | .constBool b => some (.boolV b)
  | .constNone => some .noneV
  | .nameE _ => none
  | .attrE _ _ => none
  | .callE _ _ _ => none
  | .listE xs =>
    match literalEvalList xs with
    | some vs => some (.listV vs)
    | none => none
  | .dictE xs =>
    match literalEvalPairs xs with
    | some vs => some (.dictV vs)
    | none => none

def literalEvalList : List PyExpr → Option (List PyVal)
  | [] => some []
  | e :: rest =>
    match literalEval e with
    | none => none
    | some v =>
      match literalEvalList rest with
      | none => none
      | some vs => some (v :: vs)

def literalEvalPairs : List (PyExpr × PyExpr) → Option (List (PyVal × PyVal))
  | [] => some []
  | (k, v) :: rest =>
    match literalEval k, literalEval v with
    | some kv, some vv =>
      match literalEvalPairs rest with
      | none => none
      | some vs => some ((kv, vv) :: vs)
    | _, _ => none

end

/-! ## Whitespace invariance of the tokenizer

CPython's eval-mode lexer ignores trailing whitespace; these lemmas
transport that fact to the model: `tokenize` is unchanged by stripping
trailing whitespace, hence a parseable source stays parseable (and parses
to the same AST) after `str.strip()`. -/

/-- Lexer-state well-formedness: a string state's quote character is an
actual quote, never whitespace (the only states reachable from `start`). -/
def stateOk : TokState → Prop
  | .inStr q _ => isPyWs q = false
  | .inStrEsc q _ => isPyWs q = false
  | _ => True

theorem ws_cases (c : Char) (h : isPyWs c = true) :
    c = ' ' ∨ c = '\t' ∨ c = '\n' ∨ c = '\r' ∨ c = '\x0b' ∨ c = '\x0c' := by
  simp [isPyWs] at h
  tauto

theorem ws_not_identChar {c : Char} (h : isPyWs c = true) : isIdentChar c = false := by
  rcases ws_cases c h with rfl | rfl | rfl | rfl | rfl | rfl <;> decide

theorem ws_not_identStart {c : Char} (h : isPyWs c = true) : isIdentStart c = false := by
  rcases ws_cases c h with rfl | rfl | rfl | rfl | rfl | rfl <;> decide

theorem ws_not_digit {c : Char} (h : isPyWs c = true) : c.isDigit = false := by
  rcases ws_cases c h with rfl | rfl | rfl | rfl | rfl | rfl <;> decide

theorem ws_not_backslash {c : Char} (h : isPyWs c = true) : c ≠ '\\' := by
  rcases ws_cases c h with rfl | rfl | rfl | rfl | rfl | rfl <;> decide

theorem stepStart_ws {c : Char} (h : isPyWs c = true) :
    stepStart c = some ([], .start) := by
  simp [stepStart, h]

theorem stepStart_stateOk {c : Char} {ts : List Tok} {st' : TokState}
    (h : stepStart c = some (ts, st')) : stateOk st' := by
  by_cases hws : isPyWs c = true
  · rw [stepStart_ws hws] at h
    cases h
    trivial
  · unfold stepStart at h
    rw [if_neg hws] at h
    rcases hp : punctTok c with _ | ⟨t⟩ <;> rw [hp] at h
    · split_ifs at h <;> cases h <;> try trivial
      show isPyWs c = false
      simpa using hws
    · cases h
      trivial

theorem step_stateOk {st : TokState} {c : Char} {ts : List Tok} {st' : TokState}
    (hok : stateOk st) (h : step st c = some (ts, st')) : stateOk st' := by
  cases st with
  | start => exact stepStart_stateOk h
  | inIdent acc =>
    simp only [step] at h
    by_cases hc : isIdentChar c = true
    · rw [if_pos hc] at h; cases h; trivial
    · rw [if_neg hc] at h
      rcases hs : stepStart c with _ | ⟨ts0, st0⟩
      · rw [hs] at h; cases h
      · rw [hs] at h; cases h; exact stepStart_stateOk hs
  | inNum acc =>
    simp only [step] at h
    by_cases hc : c.isDigit = true
    · rw [if_pos hc] at h; cases h; trivial
    · rw [if_neg hc] at h
      by_cases hc2 : isIdentStart c = true
      · rw [if_pos hc2] at h; cases h
      · rw [if_neg hc2] at h
        rcases hs : stepStart c with _ | ⟨ts0, st0⟩
        · rw [hs] at h; cases h
        · rw [hs] at h; cases h; exact stepStart_stateOk hs
  | inStr q acc =>
    simp only [step] at h
    split_ifs at h <;> cases h <;> trivial
  | inStrEsc q acc =>
    simp only [step] at h
    cases h
    exact hok

theorem tokenizeAux_all_ws :
    ∀ (w : List Char), (∀ c ∈ w, isPyWs c = true) →
      ∀ st, stateOk st → tokenizeAux w st = finalize st := by
  intro w
  induction w with
  | nil => intro _ st _; rfl
  | cons c rest ih =>
    intro hws st hok
    have hc : isPyWs c = true := hws c (List.mem_cons_self c rest)
    have hrest : ∀ x ∈ rest, isPyWs x = true := fun x hx => hws x (List.mem_cons_of_mem c hx)
    cases st with
    | start =>
      have hstep : step .start c = some ([], .start) := stepStart_ws hc
      simp only [tokenizeAux, hstep]
      rw [ih hrest .start trivial]
      rfl
    | inIdent acc =>
      have hstep : step (.inIdent acc) c = some ([identTok acc], .start) := by
        simp [step, ws_not_identChar hc, stepStart_ws hc]
      simp only [tokenizeAux, hstep]
      rw [ih hrest .start trivial]
      rfl
    | inNum acc =>
      have hstep : step (.inNum acc) c = some ([numTok acc], .start) := by
        simp [step, ws_not_digit hc, ws_not_identStart hc, stepStart_ws hc]
      simp only [tokenizeAux, hstep]
      rw [ih hrest .start trivial]
      rfl
    | inStr q acc =>
      have hq : isPyWs q = false := hok
      have hcq : c ≠ q := by
        intro he; rw [he, hq] at hc; cases hc
      by_cases hnl : c = '\n' ∨ c = '\r'
      · have hstep : step (.inStr q acc) c = none := by
          rcases hnl with rfl | rfl <;> simp [step, hcq]
        simp only [tokenizeAux, hstep]
        rfl
      · push_neg at hnl
        have hstep : step (.inStr q acc) c = some ([], .inStr q (c :: acc)) := by
          simp [step, hcq, hnl.1, hnl.2, ws_not_backslash hc]
        simp only [tokenizeAux, hstep]
        rw [ih hrest (.inStr q (c :: acc)) hq]
        rfl
    | inStrEsc q acc =>
      have hq : isPyWs q = false := hok
      have hstep : step (.inStrEsc q acc) c =
          some ([], .inStr q ((escChars c).reverse ++ acc)) := rfl
      simp only [tokenizeAux, hstep]
      rw [ih hrest (.inStr q ((escChars c).reverse ++ acc)) hq]
      rfl

theorem tokenizeAux_nil (st : TokState) : tokenizeAux [] st = finalize st := rfl

theorem tokenizeAux_cons (c : Char) (rest : List Char) (st : TokState) :
    tokenizeAux (c :: rest) st =
      match step st c with
      | none => none
      | some (ts, st') =>
        match tokenizeAux rest st' with
        | none => none
        | some ts2 => some (ts ++ ts2) := rfl

theorem tokenizeAux_dropTrailWs :
    ∀ (l : List Char) (st : TokState), stateOk st →
      tokenizeAux (dropTrailWs l) st = tokenizeAux l st := by
  intro l
  induction l with
  | nil => intro st _; rfl
  | cons c rest ih =>
    intro st hok
    rw [dropTrailWs_cons]
    rcases hrest : dropTrailWs rest with _ | ⟨x, xs⟩
    · have hall : ∀ y ∈ rest, isPyWs y = true := dropTrailWs_eq_nil_all_ws rest hrest
      by_cases hc : isPyWs c = true
      · simp only [if_pos hc]
        have hcall : ∀ y ∈ c :: rest, isPyWs y = true := by
          intro y hy
          rcases List.mem_cons.mp hy with rfl | hy
          · exact hc
          · exact hall y hy
        rw [tokenizeAux_all_ws (c :: rest) hcall st hok]
        rfl
      · simp only [if_neg hc]
        rcases hs : step st c with _ | ⟨ts, st'⟩
        · simp only [tokenizeAux_cons, hs]
        · simp only [tokenizeAux_cons, hs, tokenizeAux_nil]
          rw [tokenizeAux_all_ws rest hall st' (step_stateOk hok hs)]
    · show tokenizeAux (c :: (x :: xs)) st = tokenizeAux (c :: rest) st
      rcases hs : step st c with _ | ⟨ts, st'⟩
      · rw [tokenizeAux_cons c (x :: xs) st, tokenizeAux_cons c rest st]
        simp only [hs]
      · rw [tokenizeAux_cons c (x :: xs) st, tokenizeAux_cons c rest st]
        simp only [hs]
        have hx : tokenizeAux (x :: xs) st' = tokenizeAux rest st' := by
          rw [← hrest]
          exact ih st' (step_stateOk hok hs)
        rw [hx]

theorem tokenize_cons (c : Char) (rest : List Char) :
    tokenize (c :: rest) = if isPyWs c then none else tokenizeAux (c :: rest) .start := rfl

theorem tokenize_pyStripL {l : List Char} {toks : List Tok}
    (h : tokenize l = some toks) : tokenize (pyStripL l) = some toks := by
  rcases l with _ | ⟨c, rest⟩
  · exact h
  · rw [tokenize_cons] at h
    by_cases hc : isPyWs c = true
    · rw [if_pos hc] at h; cases h
    · rw [if_neg hc] at h
      have hdw : (c :: rest).dropWhile isPyWs = c :: rest := by
        simp [List.dropWhile_cons, hc]
      unfold pyStripL
      rw [hdw]
      rcases dropTrailWs_cons_structure c rest with hnil | ⟨r, hr⟩
      · have := dropTrailWs_eq_nil_all_ws (c :: rest) hnil c (List.mem_cons_self c rest)
        rw [this] at hc; exact absurd rfl hc
      · rw [hr, tokenize_cons, if_neg hc, ← hr,
          tokenizeAux_dropTrailWs (c :: rest) .start trivial]
        exact h

/-- Parsing is unchanged by `str.strip()` on a parseable source. -/
theorem pyParseEval_pyStrip {s : String} (h : pyParses s = true) :
    pyParseEval (pyStrip s) = pyParseEval s := by
  unfold pyParses at h
  unfold pyParseEval at h ⊢
  unfold pyParseEvalL at h ⊢
  rcases htok : tokenize s.data with _ | ⟨toks⟩
  · rw [htok] at h; simp at h
  · have hd : (pyStrip s).data = pyStripL s.data := rfl
    rw [hd, tokenize_pyStripL htok]

/-- A parseable source stays parseable after `str.strip()`. -/
theorem pyParses_pyStrip {s : String} (h : pyParses s = true) :
    pyParses (pyStrip s) = true := by
  unfold pyParses
  rw [pyParseEval_pyStrip h]
  exact h

/-! ## `Agent._escape_string_newlines`

Character scan tracking quote state: inside a quoted string a `\`-escape
is kept intact and a literal newline becomes the two characters `\n`;
outside any string a literal newline becomes a single space; a CRLF pair
counts as one newline. -/

def escapeNlAux : List Char → Bool → Char → List Char
  | [], _, _ => []
  | c :: rest, true, q =>
    if c = '\\' then
      match rest with
      | d :: rest2 => '\\' :: d :: escapeNlAux rest2 true q
      | [] => ['\\']
    else if c = q then c :: escapeNlAux rest false q
    else if c = '\r' then
      match rest with
      | '\n' :: rest2 => '\\' :: 'n' :: escapeNlAux rest2 true q
      | rest2 => '\\' :: 'n' :: escapeNlAux rest2 true q
    else if c = '\n' then '\\' :: 'n' :: escapeNlAux rest true q
    else c :: escapeNlAux rest true q
  | c :: rest, false, q =>
    if c = '\x22' || c = '\x27' then c :: escapeNlAux rest true c
    else if c = '\r' then
      match rest with
      | '\n' :: rest2 => ' ' :: escapeNlAux rest2 false q
      | rest2 => ' ' :: escapeNlAux rest2 false q
    else if c = '\n' then ' ' :: escapeNlAux rest false q
    else c :: escapeNlAux rest false q

/-- Model of `Agent._escape_string_newlines` (the initial quote character is
a dummy: the scan starts outside any string). -/
def escapeStringNewlines (s : String) : String :=
  ⟨escapeNlAux s.data false ' '⟩

/-! ## Whitespace collapsing (`' '.join(s.split())`) -/

/-- Python `str.split()`: words separated by whitespace runs, empties
dropped.  The accumulator holds the current word reversed. -/
def pyWordsAux : List Char → List Char → List (List Char)
  | [], acc => if acc.isEmpty then [] else [acc.reverse]
  | c :: rest, acc =>
    if isPyWs c then
      if acc.isEmpty then pyWordsAux rest []
      else acc.reverse :: pyWordsAux rest []
    else pyWordsAux rest (c :: acc)

/-- Model of `' '.join(s.split())`. -/
def collapseWs (s : String) : String :=
  ⟨List.intercalate [' '] (pyWordsAux s.data [])⟩

/-! ## Backtick stripping (`re.sub(r'(backtick)([^$]*)(backtick)', r'\1', s)`) -/

/-- Scan state for backtick stripping: `none` when outside a backtick
span, `some buf` when inside one with `buf` the content so far
(reversed).  A span closed by a second backtick keeps its content and
drops both backticks; an unmatched opening backtick is restored
verbatim at end of input (the regex finds no pair there). -/
def stripBtAux : List Char → Option (List Char) → List Char
  | [], none => []
  | [], some buf => '\x60' :: buf.reverse
  | c :: rest, none =>
    if c = '\x60' then stripBtAux rest (some [])
    else c :: stripBtAux rest none
  | c :: rest, some buf =>
    if c = '\x60' then buf.reverse ++ stripBtAux rest none
    else stripBtAux rest (some (c :: buf))

/-- Model of `re.sub` with the pattern matching a backtick-delimited span:
each non-overlapping pair of backticks is removed, keeping the span's
content. -/
def stripBackticksL (l : List Char) : List Char :=
  stripBtAux l none

/-! ## `Agent._sanitize_tool_call`

The repair cascade, parameterised by the parse oracle `p` (model of
"`ast.parse(mode='eval')` succeeds").  Tried in order, first success wins:
(1) the stripped input as is; (2) newline escaping; (3) whitespace
collapsing; (4) appending missing `)` to 2's and 3's outputs when `(`
outnumbers `)`; (5) appending a closing quote and `)`; (6) newline-escaping
the backtick-stripped input when backtick stripping changed it.  On total
failure, the stripped input. -/

/-- Step 4: append the missing close parens when `(` outnumbers `)`. -/
def parenAttempt (cand : String) : Option String :=
  let o := cand.data.count '('
  let c := cand.data.count ')'
  if c < o then some ⟨cand.data ++ List.replicate (o - c) ')'⟩ else none

/-- Step 5: append a closing quote and a close paren. -/
def quoteAttempt (q : Char) (cand : String) : String :=
  ⟨cand.data ++ [q, ')']⟩

/-- `p` holds of the value of a present option. -/
def okOpt (p : String → Bool) : Option String → Bool
  | some a => p a
  | none => false

/-- Cascade step 2's candidate: the stripped input with newlines escaped
(`fixed` in the source). -/
def sanFixed (raw : String) : String := escapeStringNewlines (pyStrip raw)

/-- Cascade step 3's candidate: the stripped input with whitespace runs
collapsed (`collapsed` in the source). -/
def sanCollapsed (raw : String) : String := collapseWs (pyStrip raw)

/-- Cascade step 6's intermediate: the stripped input with backtick spans
unwrapped (`stripped` in the source, before re-escaping). -/
def sanBtick (raw : String) : String := ⟨stripBackticksL (pyStrip raw).data⟩

/-- Model of `Agent._sanitize_tool_call` over parse oracle `p`. -/
def sanitizeToolCall (p : String → Bool) (raw : String) : String :=
  if p (pyStrip raw) then pyStrip raw
  else if p (sanFixed raw) then sanFixed raw
  else if p (sanCollapsed raw) then sanCollapsed raw
  else if okOpt p (parenAttempt (sanFixed raw)) then
    (parenAttempt (sanFixed raw)).getD (pyStrip raw)
  else if okOpt p (parenAttempt (sanCollapsed raw)) then
    (parenAttempt (sanCollapsed raw)).getD (pyStrip raw)
  else if p (quoteAttempt '\x22' (sanFixed raw)) then quoteAttempt '\x22' (sanFixed raw)
  else if p (quoteAttempt '\x22' (sanCollapsed raw)) then quoteAttempt '\x22' (sanCollapsed raw)
  else if p (quoteAttempt '\x27' (sanFixed raw)) then quoteAttempt '\x27' (sanFixed raw)
  else if p (quoteAttempt '\x27' (sanCollapsed raw)) then quoteAttempt '\x27' (sanCollapsed raw)
  else if sanBtick raw ≠ pyStrip raw && p (escapeStringNewlines (sanBtick raw)) then
    escapeStringNewlines (sanBtick raw)
  else pyStrip raw

/-- All repair strategies of the cascade fail on `raw` under oracle `p`
(the branch guards of `sanitizeToolCall`, all false). -/
@[reducible] def sanitizeFails (p : String → Bool) (raw : String) : Prop :=
  p (pyStrip raw) = false ∧ p (sanFixed raw) = false ∧ p (sanCollapsed raw) = false ∧
  okOpt p (parenAttempt (sanFixed raw)) = false ∧
  okOpt p (parenAttempt (sanCollapsed raw)) = false ∧
  p (quoteAttempt '\x22' (sanFixed raw)) = false ∧
  p (quoteAttempt '\x22' (sanCollapsed raw)) = false ∧
  p (quoteAttempt '\x27' (sanFixed raw)) = false ∧
  p (quoteAttempt '\x27' (sanCollapsed raw)) = false ∧
  (sanBtick raw ≠ pyStrip raw && p (escapeStringNewlines (sanBtick raw))) = false

example : pyParses "add(a=1,b=2)" = true := rfl
example : pyParses "pass_result(result=\"done\")" = true := rfl
example : pyParses "42" = true := rfl
example : pyParses ")(" = false := rfl
example : pyParses "foo()  " = true := rfl
example : pyParses "  foo()" = false := rfl
example : pyParses "`foo()  `" = false := rfl
example : pyParses "f(a=1, 2)" = false := rfl
example : pyParses "12ab" = false := rfl
example : pyParses "" = false := rfl
example : pyParses "add(a=foo)" = true := rfl
example : sanitizeToolCall pyParses "`foo()  `" = "foo()  " := by decide
example : sanitizeToolCall pyParses " )( " = ")(" := by decide

theorem okOpt_getD {p : String → Bool} {o : Option String} {d : String}
    (h : okOpt p o = true) : p (o.getD d) = true := by
  cases o with
  | none => simp [okOpt] at h
  | some a => simpa [okOpt] using h

set_option maxHeartbeats 1000000 in
/-- Every outcome of the cascade: either the returned string passes the
oracle, or every strategy failed and the stripped input is returned. -/
theorem sanitize_cases (p : String → Bool) (raw : String) :
    p (sanitizeToolCall p raw) = true ∨
      (sanitizeFails p raw ∧ sanitizeToolCall p raw = pyStrip raw) := by
  unfold sanitizeToolCall sanitizeFails
  split_ifs with h1 h2 h3 h4 h5 h6 h7 h8 h9 h10
  · exact Or.inl h1
  · exact Or.inl h2
  · exact Or.inl h3
  · exact Or.inl (okOpt_getD h4)
  · exact Or.inl (okOpt_getD h5)
  · exact Or.inl h6
  · exact Or.inl h7
  · exact Or.inl h8
  · exact Or.inl h9
  · exact Or.inl (Bool.and_elim_right h10)
  · refine Or.inr ⟨?_, rfl⟩
    simp only [Bool.not_eq_true] at h1 h2 h3 h4 h5 h6 h7 h8 h9 h10
    exact ⟨h1, h2, h3, h4, h5, h6, h7, h8, h9, h10⟩

set_option maxHeartbeats 1000000 in
/-- On total failure the cascade returns the *stripped* input. -/
theorem sanitize_of_fails {p : String → Bool} {raw : String}
    (h : sanitizeFails p raw) : sanitizeToolCall p raw = pyStrip raw := by
  unfold sanitizeFails at h
  obtain ⟨h1, h2, h3, h4, h5, h6, h7, h8, h9, h10⟩ := h
  unfold sanitizeToolCall
  rw [h1, h2, h3, h4, h5, h6, h7, h8, h9, h10]
  rfl

/-- On an input accepted by the oracle, the cascade returns the stripped
input at its first step (`hp` is strip-invariance of the oracle, a fact of
CPython's parser proved for the model as `pyParses_pyStrip`). -/
theorem sanitize_of_parses {p : String → Bool}
    (hp : ∀ x, p x = true → p (pyStrip x) = true)
    {r : String} (hr : p r = true) : sanitizeToolCall p r = pyStrip r := by
  unfold sanitizeToolCall
  rw [if_pos (hp r hr)]

theorem sanFixed_pyStrip (raw : String) : sanFixed (pyStrip raw) = sanFixed raw := by
  unfold sanFixed
  rw [pyStrip_idem]

theorem sanCollapsed_pyStrip (raw : String) :
    sanCollapsed (pyStrip raw) = sanCollapsed raw := by
  unfold sanCollapsed
  rw [pyStrip_idem]

theorem sanBtick_pyStrip (raw : String) : sanBtick (pyStrip raw) = sanBtick raw := by
  unfold sanBtick
  rw [pyStrip_idem]

/-- The strategies all fail on the stripped input iff they fail on the
input: every cascade candidate is built from the stripped input. -/
theorem sanitizeFails_pyStrip (p : String → Bool) (raw : String) :
    sanitizeFails p (pyStrip raw) ↔ sanitizeFails p raw := by
  unfold sanitizeFails
  rw [pyStrip_idem, sanFixed_pyStrip, sanCollapsed_pyStrip, sanBtick_pyStrip]

/-- Repair composed with itself equals a final strip: a second pass either
revalidates the (stripped) successful candidate at step 1 or re-fails the
identical cascade.  `hp` is strip-invariance of the parse oracle. -/
theorem sanitize_sanitize (p : String → Bool)
    (hp : ∀ x, p x = true → p (pyStrip x) = true) (raw : String) :
    sanitizeToolCall p (sanitizeToolCall p raw) = pyStrip (sanitizeToolCall p raw) := by
  rcases sanitize_cases p raw with h | ⟨hf, hr⟩
  · exact sanitize_of_parses hp h
  · rw [hr, sanitize_of_fails ((sanitizeFails_pyStrip p raw).mpr hf), pyStrip_idem]

/-! ## Tool-call extraction and reasoning-block stripping

`Agent.extract_all_tool_calls`: `re.findall(r"<tool>(.*?)</tool>", content,
re.DOTALL)`, each match stripped.  The loop's answer path strips
`<think>…</think>` blocks (`re.sub`) before trimming. -/

/-- `listStartsWith pat l` : `l` begins with `pat`. -/
def listStartsWith : List Char → List Char → Bool
  | [], _ => true
  | _ :: _, [] => false
  | p :: ps, c :: cs => p = c && listStartsWith ps cs

/-- First occurrence of `pat`: `some (before, after)` where `after` follows
the matched occurrence. -/
def findTag (pat : List Char) : List Char → Option (List Char × List Char)
  | [] => none
  | c :: rest =>
    if listStartsWith pat (c :: rest) then some ([], (c :: rest).drop pat.length)
    else
      match findTag pat rest with
      | some (a, b) => some (c :: a, b)
      | none => none

def toolOpenTag : List Char := "<tool>".data

def toolCloseTag : List Char := "</tool>".data

def thinkOpenTag : List Char := "<think>".data

def thinkCloseTag : List Char := "</think>".data

/-- Non-overlapping `<tool>…</tool>` spans in order, contents stripped.
Each round consumes at least the opening tag, so fuel `|l| + 1` never runs
out. -/
def extractAux : Nat → List Char → List (List Char)
  | 0, _ => []
  | fuel + 1, l =>
    match findTag toolOpenTag l with
    | none => []
    | some (_, rest) =>
      match findTag toolCloseTag rest with
      | none => []
      | some (content, rest2) => pyStripL content :: extractAux fuel rest2

/-- Model of `Agent.extract_all_tool_calls`. -/
def extractAllToolCalls (s : String) : List String :=
  (extractAux (s.data.length + 1) s.data).map (fun l => ⟨l⟩)

/-- Remove every non-overlapping `<think>…</think>` span (`re.sub` with
empty replacement). -/
def removeThinkAux : Nat → List Char → List Char
  | 0, l => l
  | fuel + 1, l =>
    match findTag thinkOpenTag l with
    | none => l
    | some (pre, rest) =>
      match findTag thinkCloseTag rest with
      | none => l
      | some (_, rest2) => pre ++ removeThinkAux fuel rest2

/-- Model of `re.sub(r"<think>.*?</think>", "", response)`. -/
def stripThink (s : String) : String :=
  ⟨removeThinkAux (s.data.length + 1) s.data⟩

/-! ## Python value rendering (`str` / `repr`) -/

mutual

/-- Python `repr` on the modelled values (string escaping simplified:
content kept verbatim inside single quotes — exact on the quote-free
strings exchanged here). -/
def pyRepr : PyVal → String
  | .intV n => toString n
  | .strV s => "\x27" ++ s ++ "\x27"
  | .boolV b => if b then "True" else "False"
  | .noneV => "None"
  | .listV xs => "[" ++ String.intercalate ", " (pyReprList xs) ++ "]"
  | .dictV xs => "\x7b" ++ String.intercalate ", " (pyReprPairs xs) ++ "\x7d"

def pyReprList : List PyVal → List String
  | [] => []
  | v :: rest => pyRepr v :: pyReprList rest

def pyReprPairs : List (PyVal × PyVal) → List String
  | [] => []
  | (k, v) :: rest => (pyRepr k ++ ": " ++ pyRepr v) :: pyReprPairs rest

end

/-- Python `str` on the modelled values. -/
def pyStr : PyVal → String
  | .strV s => s
  | v => pyRepr v

/-- Python truthiness of the modelled values. -/
def pyTruthy : PyVal → Bool
  | .intV n => n ≠ 0
  | .strV s => s ≠ ""
  | .boolV b => b
  | .noneV => false
  | .listV xs => !xs.isEmpty
  | .dictV xs => !xs.isEmpty

/-! ## `str.replace` -/

/-- Replace every non-overlapping occurrence of `pat` left to right, not
rescanning replacements (Python `str.replace`; each round consumes at
least one character, so fuel `|l| + 1` never runs out). -/
def replaceSubAux : Nat → List Char → List Char → List Char → List Char
  | 0, _, _, l => l
  | fuel + 1, pat, repl, l =>
    match findTag pat l with
    | none => l
    | some (pre, rest) => pre ++ repl ++ replaceSubAux fuel pat repl rest

/-- Model of Python `str.replace` (for the non-empty patterns used here). -/
def pyReplace (s pat repl : String) : String :=
  ⟨replaceSubAux (s.data.length + 1) pat.data repl.data s.data⟩

/-! ## Agent configuration and name resolution -/

/-- A user-registered tool as the dispatcher sees it: a name and the
`_run` entry point taking positional and keyword arguments (modelled
total; the dispatcher's exception path is not exercised by these tools). -/
structure ToolDef where
  name : String
  run : List PyVal → List (String × PyVal) → String

/-- A clan member as visible to routing: identity and the `ask_user`
flag marking the coordinator. -/
structure MemberRef where
  identity : String
  askUser : Bool

/-- The per-agent state consulted by dispatch: identity, registered tools,
clan roster (`rawmembers`), the `difflib.get_close_matches` oracle
(CPython stdlib, abstracted: returns the best roster match above the 0.6
cutoff, an element of its second argument, or nothing), the `input()`
line, and whether an output file is configured. -/
structure AgentCfg where
  identity : String
  tools : List ToolDef
  members : List MemberRef
  closeMatch : String → List String → Option String
  userInput : String
  outputFile : Bool

/-- The coordinator synonyms of `Agent._get_agent_by_name`. -/
def ceoVariations : List String :=
  ["ceo", "manager", "ceo/manager", "ceo-manager", "ceo manager"]

/-- Model of Python `str.lower` (ASCII; the identities and synonyms here
are ASCII). -/
def pyLower (s : String) : String := ⟨s.data.map Char.toLower⟩

/-- The normalisation of `Agent._get_agent_by_name`: lower-case, strip,
then remove every occurrence of `"agent "`, `" agent"`, `"the "`. -/
def normalizeAgentName (name : String) : String :=
  pyReplace (pyReplace (pyReplace (pyStrip (pyLower name)) "agent " "") " agent" "") "the " ""

/-- The roster search of `Agent._get_agent_by_name` after the synonym
check: exact case-insensitive match, then the close-match oracle
(`difflib.get_close_matches`, which only returns elements of
`namesLower`, making its inner fallback unreachable), else the input
unchanged. -/
def rosterLookup (names : List String) (oracle : String → List String → Option String)
    (clean fallback : String) : String :=
  let namesLower := names.map pyLower
  match namesLower.indexOf? clean with
  | some i => names.getD i fallback
  | none =>
    match oracle clean namesLower with
    | some m =>
      match namesLower.indexOf? m with
      | some i => names.getD i fallback
      | none => fallback
    | none => fallback

/-- Model of `Agent._get_agent_by_name`: coordinator synonyms resolve to
the fixed marker `"CEO/Manager"`; else exact case-insensitive roster
match; else the close-match oracle; else the input unchanged. -/
def getAgentByName (ag : AgentCfg) (agentName : String) : String :=
  if ceoVariations.contains (normalizeAgentName agentName) then "CEO/Manager"
  else rosterLookup (ag.members.map (·.identity)) ag.closeMatch
    (normalizeAgentName agentName) agentName

/-! ## Dispatch (`Agent.execute_tool_call`, `Agent.send_message`) -/

/-- Observable side effects of one dispatched call: a user tool executed,
a message delivered into a member's loop (whose own run is outside this
agent's frame; its return value is discarded by the source), or the user
prompted. -/
inductive ToolEvent where
  | toolRun (name : String) (args : List PyVal) (kwargs : List (String × PyVal))
  | delivered (target : String) (msg : String)
  | userAsked (question : String)

/-- Dispatch result: a textual result fed back to the loop, or the
`("__PASS_RESULT__", payload)` sentinel of `pass_result`. -/
inductive DispatchRes where
  | text (s : String)
  | sentinel (v : PyVal)

structure DispatchOut where
  res : DispatchRes
  events : List ToolEvent

/-- Modelled text of the `SyntaxError` raised by an unparseable source and
caught by the dispatcher's `except` (CPython's wording varies by error;
any such text differs from the fixed not-a-call error). -/
def parseFailText : String := "invalid syntax (<unknown>, line 1)"

/-- Modelled text of the `AttributeError` from reading `.id`/`.attr` off a
callee that is neither a name nor an attribute. -/
def funcRefFailText : String := "object has no attribute 'attr'"

/-- Modelled text of the `ValueError` from `ast.literal_eval` on a
non-literal node. -/
def litEvalFailText : String := "malformed node or string"

def kwLookup (kws : List (String × PyVal)) (k : String) : Option PyVal :=
  (kws.find? (fun kv => kv.1 = k)).map (·.2)

/-- Keyword arguments evaluated by `ast.literal_eval`, left to right. -/
def literalEvalKws : List (String × PyExpr) → Option (List (String × PyVal))
  | [] => some []
  | (k, e) :: rest =>
    match literalEval e with
    | none => none
    | some v =>
      match literalEvalKws rest with
      | none => none
      | some vs => some ((k, v) :: vs)

/-- `func_name`: `tree.body.func.id` for a name, `.attr` for an attribute,
`AttributeError` otherwise. -/
def funcNameOf : PyExpr → Option String
  | .nameE id => some id
  | .attrE _ a => some a
  | _ => none

def findTool : List ToolDef → String → Option ToolDef
  | [], _ => none
  | t :: rest, n => if t.name = n then some t else findTool rest n

/-- The message assembled by `send_message`. -/
def buildMsg (sender : String) (message : Option PyVal)
    (additionalResource : Option PyVal) : String :=
  let base := "FROM: " ++ sender ++ " | " ++
    (match message with | some v => pyStr v | none => "None")
  match additionalResource with
  | some r => if pyTruthy r then base ++ "\nRESOURCE: " ++ pyStr r else base
  | none => base

/-- The member scan of `send_message`: a coordinator-directed message goes
to the first member with `ask_user` set, otherwise to the member whose
identity equals the resolved name. -/
def routeMessage (members : List MemberRef) (isManager : Bool) (matched : String)
    (msg : String) : Option ToolEvent :=
  match members with
  | [] => none
  | m :: rest =>
    if isManager && m.askUser then some (.delivered m.identity msg)
    else if m.identity = matched then some (.delivered m.identity msg)
    else routeMessage rest isManager matched msg

/-- Model of `Agent.send_message` as invoked by dispatch with the call's
keyword arguments (an absent or non-string `agent_name` raises inside
`.lower()` and is caught as an `Error:` text). -/
def sendMessage (ag : AgentCfg) (agentName : Option PyVal) (message : Option PyVal)
    (additionalResource : Option PyVal) : DispatchOut :=
  match agentName with
  | some (.strV nameStr) =>
    let matched := getAgentByName ag nameStr
    let isManager := matched = "CEO/Manager" || matched = "Manager" || matched = "CEO"
    let msg := buildMsg ag.identity message additionalResource
    match routeMessage ag.members isManager matched msg with
    | some ev => ⟨.text ("Message delivered to " ++ matched ++ "."), [ev]⟩
    | none => ⟨.text ("Agent '" ++ nameStr ++ "' not found in clan."), []⟩
  | _ => ⟨.text ("Error: " ++ funcRefFailText), []⟩

/-- Dispatch a resolved call name with literal-evaluated arguments:
built-ins (`send_message`, `ask_user`, `pass_result`) are checked before
the user tool registry, which is matched by exact name. -/
def dispatchNamed (ag : AgentCfg) (fn : String) (argv : List PyVal)
    (kwv : List (String × PyVal)) : DispatchOut :=
  if fn = "send_message" then
    sendMessage ag (kwLookup kwv "agent_name") (kwLookup kwv "message")
      (kwLookup kwv "additional_resource")
  else if fn = "ask_user" then
    let q := match kwLookup kwv "question" with
      | some v => pyStr v
      | none => "What would you like?"
    ⟨.text ("User answered: " ++ ag.userInput), [.userAsked q]⟩
  else if fn = "pass_result" then
    ⟨.sentinel ((kwLookup kwv "result").getD (.strV "")), []⟩
  else
    match findTool ag.tools fn with
    | some t => ⟨.text (t.run argv kwv), [.toolRun fn argv kwv]⟩
    | none => ⟨.text ("Error: tool '" ++ fn ++ "' not found."), []⟩

/-- Dispatch a parsed call node: extract the callee name (`.id`/`.attr`,
an `AttributeError` otherwise) and literal-evaluate every positional and
keyword argument before anything runs; a non-literal argument raises
inside `ast.literal_eval` and is caught as an `Error:` text with nothing
executed. -/
def dispatchCall (ag : AgentCfg) (f : PyExpr) (args : List PyExpr)
    (kws : List (String × PyExpr)) : DispatchOut :=
  match funcNameOf f with
  | none => ⟨.text ("Error: " ++ funcRefFailText), []⟩
  | some fn =>
    match literalEvalList args, literalEvalKws kws with
    | some argv, some kwv => dispatchNamed ag fn argv kwv
    | _, _ => ⟨.text ("Error: " ++ litEvalFailText), []⟩

/-- Dispatch a parsed expression: anything but a call node is the fixed
`not a valid function call` error. -/
def dispatchExpr (ag : AgentCfg) : PyExpr → DispatchOut
  | .callE f args kws => dispatchCall ag f args kws
  | _ => ⟨.text "Error: not a valid function call.", []⟩

/-- Model of `Agent.execute_tool_call`: repair, parse, then dispatch the
parsed expression; an unparseable source's `SyntaxError` is caught as an
`Error:` text. -/
def executeToolCall (parse : String → Option PyExpr) (ag : AgentCfg)
    (callStr : String) : DispatchOut :=
  match parse (sanitizeToolCall (fun t => (parse t).isSome) callStr) with
  | none => ⟨.text ("Error: " ++ parseFailText), []⟩
  | some e => dispatchExpr ag e

/-- The dispatch of a source parsing to `e` is the dispatch of `e`. -/
theorem executeToolCall_parsed {parse : String → Option PyExpr} {ag : AgentCfg}
    {callStr : String} {e : PyExpr}
    (hparse : parse (sanitizeToolCall (fun t => (parse t).isSome) callStr) = some e) :
    executeToolCall parse ag callStr = dispatchExpr ag e := by
  unfold executeToolCall
  rw [hparse]

/-- The dispatch of an unparseable source is the caught `SyntaxError`. -/
theorem executeToolCall_unparsed {parse : String → Option PyExpr} {ag : AgentCfg}
    {callStr : String}
    (hparse : parse (sanitizeToolCall (fun t => (parse t).isSome) callStr) = none) :
    executeToolCall parse ag callStr = ⟨.text ("Error: " ++ parseFailText), []⟩ := by
  unfold executeToolCall
  rw [hparse]

/-! ## The agentic loop (`Agent.unleash`) -/

/-- How one `unleash` activation ended: a no-tool-calls turn (reasoning
stripped, remainder is the answer), the `pass_result` sentinel's payload,
or the raw last response on turn-budget exhaustion. -/
inductive Outcome where
  | answer (s : String)
  | passed (v : PyVal)
  | exhausted (raw : String)

/-- Observable trace of one `unleash` activation: the terminal outcome,
every input sent to the model (in order), every raw model response, every
write to the configured output file, and the dispatch events. -/
structure LoopResult where
  outcome : Outcome
  modelInputs : List String
  responses : List String
  outputWrites : List String
  events : List ToolEvent

/-- Execute one turn's extracted calls in order, collecting
``Tool `call` returned:\n…`` feedback lines; a `pass_result` sentinel
short-circuits the remaining calls of the turn. -/
def execToolCalls (parse : String → Option PyExpr) (ag : AgentCfg) :
    List String → (PyVal × List ToolEvent) ⊕ (List String × List ToolEvent)
  | [] => .inr ([], [])
  | c :: rest =>
    let out := executeToolCall parse ag c
    match out.res with
    | .sentinel v => .inl (v, out.events)
    | .text t =>
      match execToolCalls parse ag rest with
      | .inl (v, evs) => .inl (v, out.events ++ evs)
      | .inr (os, evs) =>
        .inr (("Tool \x60" ++ c ++ "\x60 returned:\n" ++ t) :: os, out.events ++ evs)

/-- The turn loop of `Agent.unleash` with `fuel` turns remaining: run the
model, extract calls; no calls is a final answer (written to the output
file when configured); a sentinel terminates with its payload (written
likewise); otherwise feed the joined tool outputs to the next turn, or
end exhausted when this was the last turn. -/
def agentTurns (parse : String → Option PyExpr) (llm : Nat → String → String)
    (ag : AgentCfg) : Nat → Nat → String → LoopResult
  | 0, _, _ => ⟨.exhausted "", [], [], [], []⟩
  | fuel + 1, turn, input =>
    let response := llm turn input
    let calls := extractAllToolCalls response
    if calls.isEmpty then
      let ans := pyStrip (stripThink response)
      ⟨.answer ans, [input], [response], if ag.outputFile then [ans] else [], []⟩
    else
      match execToolCalls parse ag calls with
      | .inl (v, evs) =>
        ⟨.passed v, [input], [response], if ag.outputFile then [pyStr v] else [], evs⟩
      | .inr (outputs, evs) =>
        match fuel with
        | 0 => ⟨.exhausted response, [input], [response], [], evs⟩
        | fuel2 + 1 =>
          let r := agentTurns parse llm ag (fuel2 + 1) (turn + 1)
            (String.intercalate "\n\n" outputs)
          ⟨r.outcome, input :: r.modelInputs, response :: r.responses,
            r.outputWrites, evs ++ r.events⟩

/-- The fixed turn budget of `Agent.unleash` (`max_turns = 10`). -/
def maxTurns : Nat := 10

/-- Model of `Agent.unleash` (history persistence, prompt assembly and
console output are outside the modelled frame; the model adapter is the
function `llm : turn index → input → response`). -/
def unleash (parse : String → Option PyExpr) (llm : Nat → String → String)
    (ag : AgentCfg) (task : String) : LoopResult :=
  agentTurns parse llm ag maxTurns 0 task

/-! ## Tool parameter validation (`unisonai/tools/tool.py`) -/

/-- Modelled from the spec: `ToolParameterType` of
`unisonai/tools/types.py` (a file absent from the sources; §3 names the
semantic type tags string/integer/float/boolean/list/mapping/any). -/
inductive PType where
  | stringT | integerT | floatT | booleanT | listT | dictT | anyT
deriving DecidableEq

/-- Modelled from the spec: the `.value` strings of `ToolParameterType`
(§3's tag names; used only inside rendered messages). -/
def ptypeStr : PType → String
  | .stringT => "string"
  | .integerT => "integer"
  | .floatT => "float"
  | .booleanT => "boolean"
  | .listT => "list"
  | .dictT => "dict"
  | .anyT => "any"

/-- `Field` of `tool.py`: name, required flag, declared type, default. -/
structure FieldSpec where
  name : String
  required : Bool := true
  fieldType : PType := .stringT
  defaultValue : Option PyVal := none

/-- Python's `type(value).__name__` on the modelled values. -/
def pyTypeName : PyVal → String
  | .intV _ => "int"
  | .strV _ => "str"
  | .boolV _ => "bool"
  | .noneV => "NoneType"
  | .listV _ => "list"
  | .dictV _ => "dict"

/-- Model of `Field.validate_value`: `None` is accepted iff the field is
optional; otherwise an `isinstance` check per declared type (a Python
`bool` is an `int`, so it passes the integer and float checks). -/
def validateValue (f : FieldSpec) (v : PyVal) : Bool :=
  match v with
  | .noneV => !f.required
  | _ =>
    match f.fieldType, v with
    | .stringT, .strV _ => true
    | .integerT, .intV _ => true
    | .integerT, .boolV _ => true
    | .floatT, .intV _ => true
    | .floatT, .boolV _ => true
    | .booleanT, .boolV _ => true
    | .listT, .listV _ => true
    | .dictT, .dictV _ => true
    | .anyT, _ => true
    | _, _ => false

/-- `ToolResult` of `tool.py` (metadata omitted; the result value is the
rendered form the loop consumes). -/
structure ToolResultM where
  success : Bool
  result : Option String
  errorMessage : Option String
deriving DecidableEq

/-- Model of `BaseTool.validate_parameters`: scan the parameter list in
order; the first required-and-absent parameter fails with
`Missing required parameter: <name>`; a present value of the wrong type
fails with the typed message; else success. -/
def validateParameters (params : List FieldSpec) (kwargs : List (String × PyVal)) :
    ToolResultM :=
  match params with
  | [] => ⟨true, some "Parameters validated successfully", none⟩
  | p :: rest =>
    if p.required && (kwLookup kwargs p.name).isNone then
      ⟨false, none, some ("Missing required parameter: " ++ p.name)⟩
    else
      match kwLookup kwargs p.name with
      | some v =>
        if !validateValue p v then
          ⟨false, none, some ("Invalid type for parameter " ++ p.name ++
            ": expected " ++ ptypeStr p.fieldType ++ ", got " ++ pyTypeName v)⟩
        else validateParameters rest kwargs
      | none => validateParameters rest kwargs

/-- The default-filling pass of `BaseTool.run`: a missing optional
parameter with a non-`None` default is added. -/
def addDefaults (params : List FieldSpec) (kwargs : List (String × PyVal)) :
    List (String × PyVal) :=
  match params with
  | [] => kwargs
  | p :: rest =>
    match kwLookup kwargs p.name, p.defaultValue with
    | none, some d => addDefaults rest (kwargs ++ [(p.name, d)])
    | _, _ => addDefaults rest kwargs

/-- Model of `BaseTool.run`: validate, return the validation failure as
is, else fill defaults and execute `_run` (modelled total). -/
def baseToolRun (params : List FieldSpec) (frun : List (String × PyVal) → String)
    (kwargs : List (String × PyVal)) : ToolResultM :=
  let vr := validateParameters params kwargs
  if !vr.success then vr
  else ⟨true, some (frun (addDefaults params kwargs)), none⟩

/-! ## Clan wiring (`Clan.__init__`) -/

/-- A clan member before wiring: identity and description. -/
structure MemberSpec where
  identity : String
  description : String

/-- The roster line label: the manager is tagged `(Manager)` (member
equality modelled by identity, identities being unique per the spec). -/
def clanLabel (managerId : String) (m : MemberSpec) : String :=
  if m.identity = managerId then m.identity ++ " (Manager)" else m.identity

/-- The wiring loop of `Clan.__init__`: `formatted_members` grows one
line per member and `member.members` is assigned *inside* the loop, so
member `i` receives the first `i+1` roster lines. -/
def clanInjectAux (managerId : String) : List MemberSpec → String → List String
  | [], _ => []
  | m :: rest, acc =>
    let acc2 := acc ++ "- " ++ clanLabel managerId m ++ ": " ++ m.description ++ "\n"
    acc2 :: clanInjectAux managerId rest acc2

/-- The roster description each member holds after `Clan.__init__`
(position `i` is what member `i` was assigned). -/
def clanInjectedRosters (managerId : String) (members : List MemberSpec) : List String :=
  clanInjectAux managerId members ""

/-- The complete roster description (`self.formatted_members` after the
loop). -/
def clanFormattedMembers (managerId : String) (members : List MemberSpec) : String :=
  members.foldl (fun acc m =>
    acc ++ "- " ++ clanLabel managerId m ++ ": " ++ m.description ++ "\n") ""

/-! ## Concrete instances for the test properties -/

/-- `True` iff the dispatch outcome is the `pass_result` sentinel. -/
def isSentinel (o : DispatchOut) : Bool :=
  match o.res with
  | .sentinel _ => true
  | .text _ => false

/-- Modelled from the spec: the example tool `add(a, b)` of §8's test
properties, returning the rendered sum of its keyword arguments. -/
def addToolRun (args : List PyVal) (kwargs : List (String × PyVal)) : String :=
  match args, kwLookup kwargs "a", kwLookup kwargs "b" with
  | [], some (.intV a), some (.intV b) => toString (a + b)
  | _, _, _ => "TypeError"

def addTool : ToolDef := ⟨"add", addToolRun⟩

/-- A close-match oracle finding nothing (rosters here need no fuzzy
matching). -/
def noMatch : String → List String → Option String := fun _ _ => none

/-- A solo agent: no tools, no clan, no output file. -/
def soloAgent : AgentCfg := ⟨"Agent", [], [], noMatch, "", false⟩

/-- A solo agent with an output file configured. -/
def soloAgentOut : AgentCfg := ⟨"Agent", [], [], noMatch, "", true⟩

/-- An agent with the `add` tool registered. -/
def addAgent : AgentCfg := ⟨"Agent", [addTool], [], noMatch, "", false⟩

/-- A clan-connected agent whose coordinator is named `Alice`. -/
def rosterAgent : AgentCfg :=
  ⟨"Alice", [], [⟨"Alice", true⟩, ⟨"Bob", false⟩], noMatch, "", false⟩

/-- A model that always requests one unknown tool. -/
def llmNop : Nat → String → String := fun _ _ => "<tool>nop()</tool>"

/-- A model that always requests `pass_result`. -/
def llmPass : Nat → String → String := fun _ _ => "<tool>pass_result(result=\"x\")</tool>"

example : extractAllToolCalls "<tool>add(a=1,b=2)</tool><tool>pass_result(result=\"done\")</tool>"
    = ["add(a=1,b=2)", "pass_result(result=\"done\")"] := by decide

example : isSentinel (executeToolCall pyParseEval addAgent "add(a=1,b=2)") = false := by decide

example : isSentinel (executeToolCall pyParseEval addAgent "pass_result(result=\"done\")") = true := by
  decide

example : normalizeAgentName "the Manager" = "manager" := by decide

example : getAgentByName rosterAgent "CEO" = "CEO/Manager" := by decide

example : (unleash pyParseEval llmNop soloAgent "t").responses.length = 10 := by decide

example : (unleash pyParseEval llmPass soloAgent "t").responses.length = 1 := by decide

example : (unleash pyParseEval llmNop soloAgentOut "t").outputWrites = [] := by decide

/-! ## Supporting lemmas for the claims -/

theorem literalEvalList_none :
    ∀ (args : List PyExpr), (∃ a ∈ args, literalEval a = none) →
      literalEvalList args = none := by
  intro args
  induction args with
  | nil => intro ⟨a, ha, _⟩; cases ha
  | cons e rest ih =>
    intro ⟨a, ha, hnone⟩
    rcases List.mem_cons.mp ha with rfl | ha
    · simp only [literalEvalList, hnone]
    · unfold literalEvalList
      rcases he : literalEval e with _ | v
      · rfl
      · rw [ih ⟨a, ha, hnone⟩]

theorem literalEvalKws_none :
    ∀ (kws : List (String × PyExpr)), (∃ kv ∈ kws, literalEval kv.2 = none) →
      literalEvalKws kws = none := by
  intro kws
  induction kws with
  | nil => intro ⟨kv, hkv, _⟩; cases hkv
  | cons hd rest ih =>
    obtain ⟨k, v⟩ := hd
    rintro ⟨kv, hkv, hnone⟩
    rcases List.mem_cons.mp hkv with heq | hkv
    · subst heq
      have hv : literalEval v = none := hnone
      simp only [literalEvalKws, hv]
    · unfold literalEvalKws
      rcases he : literalEval v with _ | w
      · rfl
      · rw [ih ⟨kv, hkv, hnone⟩]

set_option maxHeartbeats 2000000 in
/-- Dispatching `add(a=1,b=2)` reaches the user-tool lookup with the
literal keyword arguments, whatever the registry holds. -/
theorem exec_add (ag : AgentCfg) :
    executeToolCall pyParseEval ag "add(a=1,b=2)" =
      match findTool ag.tools "add" with
      | some t => ⟨.text (t.run [] [("a", .intV 1), ("b", .intV 2)]),
          [.toolRun "add" [] [("a", .intV 1), ("b", .intV 2)]]⟩
      | none => ⟨.text "Error: tool 'add' not found.", []⟩ := rfl

set_option maxHeartbeats 2000000 in
/-- Dispatching `pass_result(result="done")` yields the sentinel with the
payload, whatever the agent configuration. -/
theorem exec_pass_done (ag : AgentCfg) :
    executeToolCall pyParseEval ag "pass_result(result=\"done\")" =
      ⟨.sentinel (.strV "done"), []⟩ := rfl

/-- The single-step equation of the turn loop. -/
theorem agentTurns_succ (parse : String → Option PyExpr) (llm : Nat → String → String)
    (ag : AgentCfg) (fuel turn : Nat) (input : String) :
    agentTurns parse llm ag (fuel + 1) turn input =
      if (extractAllToolCalls (llm turn input)).isEmpty then
        ⟨.answer (pyStrip (stripThink (llm turn input))), [input], [llm turn input],
          if ag.outputFile then [pyStrip (stripThink (llm turn input))] else [], []⟩
      else
        match execToolCalls parse ag (extractAllToolCalls (llm turn input)) with
        | .inl (v, evs) =>
          ⟨.passed v, [input], [llm turn input],
            if ag.outputFile then [pyStr v] else [], evs⟩
        | .inr (outputs, evs) =>
          match fuel with
          | 0 => ⟨.exhausted (llm turn input), [input], [llm turn input], [], evs⟩
          | fuel2 + 1 =>
            let r := agentTurns parse llm ag (fuel2 + 1) (turn + 1)
              (String.intercalate "\n\n" outputs)
            ⟨r.outcome, input :: r.modelInputs, llm turn input :: r.responses,
              r.outputWrites, evs ++ r.events⟩ := by
  conv_lhs => rw [agentTurns]

/-- Executing the spec's two-call turn: the `add` result is a text and the
following `pass_result` sentinel ends the turn with payload `"done"`. -/
theorem execToolCalls_addpass (ag : AgentCfg) : ∃ evs,
    execToolCalls pyParseEval ag ["add(a=1,b=2)", "pass_result(result=\"done\")"] =
      .inl (.strV "done", evs) := by
  rcases hft : findTool ag.tools "add" with _ | ⟨t⟩
  · refine ⟨[], ?_⟩
    simp only [execToolCalls, exec_add, exec_pass_done, hft, List.nil_append,
      List.append_nil]
  · refine ⟨[.toolRun "add" [] [("a", .intV 1), ("b", .intV 2)]], ?_⟩
    simp only [execToolCalls, exec_add, exec_pass_done, hft, List.nil_append,
      List.append_nil]

/-- A turn none of whose calls resolves to the sentinel produces feedback
outputs, never a `pass_result` termination. -/
theorem execToolCalls_inr (parse : String → Option PyExpr) (ag : AgentCfg) :
    ∀ calls : List String,
      (∀ c ∈ calls, isSentinel (executeToolCall parse ag c) = false) →
      ∃ os evs, execToolCalls parse ag calls = .inr (os, evs) := by
  intro calls
  induction calls with
  | nil => intro _; exact ⟨[], [], rfl⟩
  | cons c rest ih =>
    intro h
    have hc := h c (List.mem_cons_self c rest)
    rcases hres : (executeToolCall parse ag c).res with t | v
    · obtain ⟨os, evs, hrec⟩ := ih (fun x hx => h x (List.mem_cons_of_mem c hx))
      refine ⟨("Tool \x60" ++ c ++ "\x60 returned:\n" ++ t) :: os,
        (executeToolCall parse ag c).events ++ evs, ?_⟩
      simp only [execToolCalls, hres, hrec]
    · exfalso
      rw [show isSentinel (executeToolCall parse ag c) = true by
        simp [isSentinel, hres]] at hc
      cases hc

/-- Under a model that requests at least one tool call every turn, none of
which resolves to the sentinel, the loop runs its full fuel and ends
exhausted with the last raw response. -/
theorem agentTurns_allcalls (parse : String → Option PyExpr)
    (llm : Nat → String → String) (ag : AgentCfg)
    (hcalls : ∀ t s, (extractAllToolCalls (llm t s)).isEmpty = false)
    (hnopass : ∀ t s c, c ∈ extractAllToolCalls (llm t s) →
      isSentinel (executeToolCall parse ag c) = false) :
    ∀ fuel turn input,
      (agentTurns parse llm ag (fuel + 1) turn input).responses.length = fuel + 1 ∧
      ∃ r, (agentTurns parse llm ag (fuel + 1) turn input).outcome = .exhausted r ∧
        (agentTurns parse llm ag (fuel + 1) turn input).responses.getLast? = some r := by
  intro fuel
  induction fuel with
  | zero =>
    intro turn input
    obtain ⟨os, evs, hexec⟩ := execToolCalls_inr parse ag _ (hnopass turn input)
    rw [agentTurns_succ]
    simp only [hcalls turn input, Bool.false_eq_true, if_false, hexec]
    exact ⟨rfl, llm turn input, rfl, rfl⟩
  | succ f ih =>
    intro turn input
    obtain ⟨os, evs, hexec⟩ := execToolCalls_inr parse ag _ (hnopass turn input)
    rw [agentTurns_succ]
    simp only [hcalls turn input, Bool.false_eq_true, if_false, hexec]
    obtain ⟨hlen, r, hout, hlast⟩ := ih (turn + 1) (String.intercalate "\n\n" os)
    refine ⟨by simpa using hlen, r, hout, ?_⟩
    rcases hresp : (agentTurns parse llm ag (f + 1) (turn + 1)
        (String.intercalate "\n\n" os)).responses with _ | ⟨x, xs⟩
    · rw [hresp] at hlen; cases hlen
    · rw [hresp] at hlast
      simpa [List.getLast?_cons_cons, hresp] using hlast

/-- The output file is written only by the two terminal-success paths: an
exhausted loop leaves the write trace empty. -/
theorem agentTurns_exhausted_writes (parse : String → Option PyExpr)
    (llm : Nat → String → String) (ag : AgentCfg) :
    ∀ fuel turn input r,
      (agentTurns parse llm ag fuel turn input).outcome = .exhausted r →
      (agentTurns parse llm ag fuel turn input).outputWrites = [] := by
  intro fuel
  induction fuel with
  | zero => intro turn input r _; rfl
  | succ f ih =>
    intro turn input r h
    rw [agentTurns_succ] at h ⊢
    by_cases hemp : (extractAllToolCalls (llm turn input)).isEmpty = true
    · rw [if_pos hemp] at h
      simp at h
    · rw [if_neg hemp] at h ⊢
      rcases hexec : execToolCalls parse ag (extractAllToolCalls (llm turn input))
        with ⟨v, evs⟩ | ⟨os, evs⟩
      · rw [hexec] at h
        simp at h
      · rw [hexec] at h
        cases f with
        | zero => rfl
        | succ f2 => exact ih (turn + 1) (String.intercalate "\n\n" os) r h

/-- Scanning the parameter list with every other parameter supplied with a
valid value, a required missing parameter is reported by its own name. -/
theorem validateParameters_missing :
    ∀ (params : List FieldSpec) (kwargs : List (String × PyVal)) (p : FieldSpec),
      p ∈ params → p.required = true → kwLookup kwargs p.name = none →
      (∀ q ∈ params, q.name ≠ p.name →
        ∃ v, kwLookup kwargs q.name = some v ∧ validateValue q v = true) →
      validateParameters params kwargs =
        ⟨false, none, some ("Missing required parameter: " ++ p.name)⟩ := by
  intro params
  induction params with
  | nil => intro kwargs p hp; cases hp
  | cons hd rest ih =>
    intro kwargs p hp hreq hmiss hothers
    by_cases hname : hd.name = p.name
    · have hlk : kwLookup kwargs hd.name = none := by rw [hname]; exact hmiss
      by_cases hr : hd.required = true
      · unfold validateParameters
        rw [hlk, hr]
        simp only [Option.isNone_none, Bool.and_self, if_true, hname]
      · have hrf : hd.required = false := by simpa using hr
        have hp2 : p ∈ rest := by
          rcases List.mem_cons.mp hp with rfl | h
          · rw [hreq] at hrf; cases hrf
          · exact h
        unfold validateParameters
        rw [hrf, hlk]
        simp only [Bool.false_and, Bool.false_eq_true, if_false]
        exact ih kwargs p hp2 hreq hmiss
          (fun q hq => hothers q (List.mem_cons_of_mem hd hq))
    · obtain ⟨v, hv, hvalid⟩ := hothers hd (List.mem_cons_self hd rest) hname
      have hp2 : p ∈ rest := by
        rcases List.mem_cons.mp hp with rfl | h
        · exact absurd rfl hname
        · exact h
      unfold validateParameters
      rw [hv]
      simp only [Option.isNone_some, Bool.and_false, Bool.false_eq_true, if_false,
        hvalid, Bool.not_true]
      exact ih kwargs p hp2 hreq hmiss
        (fun q hq => hothers q (List.mem_cons_of_mem hd hq))

/-! ## The claims -/

/-- C1: for every call string passed to dispatch, argument values are
evaluated as literal data only; any call with a non-literal argument (an
identifier, a nested call, an attribute access) is rejected with a
textual `Error:` result and nothing is executed (the event trace is
empty). -/
theorem claim1_nonliteral_args_rejected (parse : String → Option PyExpr)
    (ag : AgentCfg) (s : String) (f : PyExpr) (args : List PyExpr)
    (kws : List (String × PyExpr))
    (hparse : parse (sanitizeToolCall (fun t => (parse t).isSome) s) =
      some (.callE f args kws))
    (hbad : (∃ a ∈ args, literalEval a = none) ∨ (∃ kv ∈ kws, literalEval kv.2 = none)) :
    (∃ msg, (executeToolCall parse ag s).res = .text ("Error: " ++ msg)) ∧
    (executeToolCall parse ag s).events = [] := by
  rw [executeToolCall_parsed hparse]
  rcases hf : funcNameOf f with _ | fn
  · exact ⟨⟨funcRefFailText, by simp [dispatchExpr, dispatchCall, hf]⟩,
      by simp [dispatchExpr, dispatchCall, hf]⟩
  · rcases hbad with hargs | hkws
    · have h1 := literalEvalList_none args hargs
      exact ⟨⟨litEvalFailText, by simp [dispatchExpr, dispatchCall, hf, h1]⟩,
        by simp [dispatchExpr, dispatchCall, hf, h1]⟩
    · have h2 := literalEvalKws_none kws hkws
      rcases h1 : literalEvalList args with _ | argv
      · exact ⟨⟨litEvalFailText, by simp [dispatchExpr, dispatchCall, hf, h1, h2]⟩,
          by simp [dispatchExpr, dispatchCall, hf, h1, h2]⟩
      · exact ⟨⟨litEvalFailText, by simp [dispatchExpr, dispatchCall, hf, h1, h2]⟩,
          by simp [dispatchExpr, dispatchCall, hf, h1, h2]⟩

/-- C1 witness: `add(a=foo)` carries the identifier `foo` as an argument;
dispatch returns an `Error:` text and executes nothing. -/
theorem claim1_witness :
    (∃ msg, (executeToolCall pyParseEval addAgent "add(a=foo)").res =
      .text ("Error: " ++ msg)) ∧
    (executeToolCall pyParseEval addAgent "add(a=foo)").events = [] :=
  claim1_nonliteral_args_rejected pyParseEval addAgent "add(a=foo)"
    (.nameE "add") [] [("a", .nameE "foo")] rfl
    (Or.inr ⟨("a", .nameE "foo"), List.mem_singleton.mpr rfl, rfl⟩)

/-- C2: a model turn whose extracted tool calls are
`[add(a=1,b=2), pass_result(result="done")]` terminates the loop at once
with final answer `"done"`; the `add` result is never fed back as model
input (the task is the only model input of the run). -/
theorem claim2_pass_result_short_circuits (llm : Nat → String → String)
    (ag : AgentCfg) (task : String)
    (h : extractAllToolCalls (llm 0 task) =
      ["add(a=1,b=2)", "pass_result(result=\"done\")"]) :
    (unleash pyParseEval llm ag task).outcome = .passed (.strV "done") ∧
    (unleash pyParseEval llm ag task).modelInputs = [task] := by
  obtain ⟨evs, hexec⟩ := execToolCalls_addpass ag
  have hu : unleash pyParseEval llm ag task =
      agentTurns pyParseEval llm ag (9 + 1) 0 task := rfl
  rw [hu, agentTurns_succ, h]
  simp [hexec]

/-- A model whose every turn is the spec's two-call turn. -/
def llmAddPass : Nat → String → String :=
  fun _ _ => "<tool>add(a=1,b=2)</tool><tool>pass_result(result=\"done\")</tool>"

/-- C2 witness: with the `add` tool registered and the two-call response,
the loop ends at once with `"done"` after a single model input. -/
theorem claim2_witness :
    (unleash pyParseEval llmAddPass addAgent "t").outcome = .passed (.strV "done") ∧
    (unleash pyParseEval llmAddPass addAgent "t").modelInputs = ["t"] :=
  claim2_pass_result_short_circuits llmAddPass addAgent "t" (by decide)

/-- C3 counterexample: a model that requests a tool call on every turn —
always `pass_result` — yet the loop ends after one turn with that result,
not after ten turns with the tenth raw response. -/
theorem claim3_counterexample :
    extractAllToolCalls "<tool>pass_result(result=\"x\")</tool>" =
      ["pass_result(result=\"x\")"] ∧
    (unleash pyParseEval llmPass soloAgent "task").responses.length = 1 ∧
    (unleash pyParseEval llmPass soloAgent "task").outcome = .passed (.strV "x") :=
  ⟨by decide, by decide, rfl⟩

/-- C3 as amended: for every model that requests at least one tool call on
every turn, none of which resolves to the `pass_result` sentinel, the
loop terminates after exactly 10 turns (10 model invocations) and
returns the 10th raw model response, flagged as incomplete (the
`exhausted` outcome). -/
theorem claim3_amended_budget_exhaustion (parse : String → Option PyExpr)
    (llm : Nat → String → String) (ag : AgentCfg) (task : String)
    (hcalls : ∀ t s, (extractAllToolCalls (llm t s)).isEmpty = false)
    (hnopass : ∀ t s c, c ∈ extractAllToolCalls (llm t s) →
      isSentinel (executeToolCall parse ag c) = false) :
    (unleash parse llm ag task).responses.length = 10 ∧
    ∃ r, (unleash parse llm ag task).outcome = .exhausted r ∧
      (unleash parse llm ag task).responses.getLast? = some r :=
  agentTurns_allcalls parse llm ag hcalls hnopass 9 0 task

/-- C3 witness: a model always requesting an unknown tool runs all 10
turns and ends exhausted with the last raw response. -/
theorem claim3_witness :
    (unleash pyParseEval llmNop soloAgent "task").responses.length = 10 ∧
    ∃ r, (unleash pyParseEval llmNop soloAgent "task").outcome = .exhausted r ∧
      (unleash pyParseEval llmNop soloAgent "task").responses.getLast? = some r :=
  claim3_amended_budget_exhaustion pyParseEval llmNop soloAgent "task"
    (fun t s => by
      show (extractAllToolCalls "<tool>nop()</tool>").isEmpty = false
      decide)
    (fun t s c hc => by
      have hc2 : c ∈ ["nop()"] := hc
      rcases List.mem_singleton.mp hc2 with rfl
      decide)

/-- C4 counterexample: with the coordinator named `Alice` (the roster
member with `ask_user` set), resolving `"CEO"` returns the fixed marker
`"CEO/Manager"`, not the coordinator's identity. -/
theorem claim4_counterexample :
    (rosterAgent.members.find? (·.askUser)).map (·.identity) = some "Alice" ∧
    getAgentByName rosterAgent "CEO" = "CEO/Manager" ∧
    "CEO/Manager" ≠ "Alice" :=
  ⟨rfl, by decide, by decide⟩

/-- C4 as amended: for every roster, resolving an agent name whose
normalized form (lowercased, filler words removed) is a coordinator
synonym returns the fixed coordinator marker `"CEO/Manager"`, which
message routing delivers to the coordinator. -/
theorem claim4_amended_synonym_marker (ag : AgentCfg) (name : String)
    (h : ceoVariations.contains (normalizeAgentName name) = true) :
    getAgentByName ag name = "CEO/Manager" := by
  unfold getAgentByName
  rw [if_pos h]

/-- C4 witness: `"the Manager"` normalizes to a coordinator synonym and
resolves to the marker. -/
theorem claim4_witness :
    ceoVariations.contains (normalizeAgentName "the Manager") = true ∧
    getAgentByName rosterAgent "the Manager" = "CEO/Manager" :=
  ⟨by decide, claim4_amended_synonym_marker rosterAgent "the Manager" (by decide)⟩

/-- C5 (code bug): in a two-member clan the wiring loop assigns the
roster description inside the loop, so the first member holds only its
own line while the full roster lists both members — contradicting the
claim that every member holds the same complete roster description. -/
theorem claim5_partial_roster_injection :
    clanInjectedRosters "Alice" [⟨"Alice", "Leads"⟩, ⟨"Bob", "Works"⟩] =
      ["- Alice (Manager): Leads\n", "- Alice (Manager): Leads\n- Bob: Works\n"] ∧
    (clanInjectedRosters "Alice" [⟨"Alice", "Leads"⟩, ⟨"Bob", "Works"⟩]).getD 0 "" ≠
      clanFormattedMembers "Alice" [⟨"Alice", "Leads"⟩, ⟨"Bob", "Works"⟩] :=
  ⟨by decide, by decide⟩

/-- C6 counterexample: on `" )( "` every repair strategy fails, and repair
returns the *stripped* string `")("`, not the original unchanged. -/
theorem claim6_counterexample :
    sanitizeFails pyParses " )( " ∧ sanitizeToolCall pyParses " )( " ≠ " )( " :=
  ⟨by decide, by decide⟩

/-- C6 as amended: on every input on which every repair strategy fails,
repair returns the original string stripped of surrounding whitespace
(hence unchanged whenever the input carries none), and never throws
(it is a total function). -/
theorem claim6_amended_returns_stripped (p : String → Bool) (raw : String)
    (h : sanitizeFails p raw) : sanitizeToolCall p raw = pyStrip raw :=
  sanitize_of_fails h

/-- C6 witness: the amended statement at `" )( "`. -/
theorem claim6_witness : sanitizeToolCall pyParses " )( " = pyStrip " )( " :=
  claim6_amended_returns_stripped pyParses " )( " (by decide)

/-- C7 counterexample: repair is not idempotent: backtick stripping on
an input wrapping `foo()` plus trailing blanks yields a parse-accepted
candidate that still carries whitespace, which a second repair strips. -/
theorem claim7_counterexample :
    sanitizeToolCall pyParses (sanitizeToolCall pyParses "\x60foo()  \x60") ≠
      sanitizeToolCall pyParses "\x60foo()  \x60" := by decide

/-- C7 as amended: for every strip-invariant parse oracle (CPython's
parser is one: `pyParses_pyStrip`), repair composed with itself equals a
final `strip` of a single repair — idempotent except for surrounding
whitespace a backtick-stripping repair may retain. -/
theorem claim7_amended_idem_up_to_strip (p : String → Bool)
    (hp : ∀ x, p x = true → p (pyStrip x) = true) (raw : String) :
    sanitizeToolCall p (sanitizeToolCall p raw) = pyStrip (sanitizeToolCall p raw) :=
  sanitize_sanitize p hp raw

/-- C7 witness: the amended statement at the counterexample's input under
the concrete parser. -/
theorem claim7_witness :
    sanitizeToolCall pyParses (sanitizeToolCall pyParses "\x60foo()  \x60") =
      pyStrip (sanitizeToolCall pyParses "\x60foo()  \x60") :=
  claim7_amended_idem_up_to_strip pyParses (fun _ hx => pyParses_pyStrip hx)
    "\x60foo()  \x60"

/-- C8 counterexample: `")("` cannot be parsed as a function call even
after repair, yet dispatch returns the caught `SyntaxError` text, not the
fixed `not a valid function call` error string. -/
theorem claim8_counterexample :
    (executeToolCall pyParseEval soloAgent ")(").res =
      .text ("Error: " ++ parseFailText) ∧
    "Error: " ++ parseFailText ≠ "Error: not a valid function call." :=
  ⟨rfl, by decide⟩

/-- C8 as amended: for every call string that, after repair, parses as an
expression that is not a function call, dispatch returns the fixed error
string `"Error: not a valid function call."`; a string that does not
parse at all yields the caught parser error text instead. -/
theorem claim8_amended_noncall_error (parse : String → Option PyExpr)
    (ag : AgentCfg) (s : String) (e : PyExpr)
    (hparse : parse (sanitizeToolCall (fun t => (parse t).isSome) s) = some e)
    (hnc : ∀ f args kws, e ≠ .callE f args kws) :
    executeToolCall parse ag s = ⟨.text "Error: not a valid function call.", []⟩ := by
  rw [executeToolCall_parsed hparse]
  cases e with
  | callE f args kws => exact absurd rfl (hnc f args kws)
  | constInt n => rfl
  | constStr s2 => rfl
  | constBool b => rfl
  | constNone => rfl
  | nameE id => rfl
  | attrE e2 a => rfl
  | listE xs => rfl
  | dictE xs => rfl

/-- C8 witness: `"42"` parses as a non-call expression and dispatch
returns the fixed error. -/
theorem claim8_witness :
    executeToolCall pyParseEval soloAgent "42" =
      ⟨.text "Error: not a valid function call.", []⟩ :=
  claim8_amended_noncall_error pyParseEval soloAgent "42" (.constInt 42) rfl
    (fun _ _ _ h => by cases h)

/-- C9: invoking a tool whose parameter list contains a required
parameter without supplying it — everything else supplied with valid
values — yields a validation failure whose error message names exactly
that parameter. -/
theorem claim9_missing_param_validation (params : List FieldSpec)
    (frun : List (String × PyVal) → String) (kwargs : List (String × PyVal))
    (p : FieldSpec) (hmem : p ∈ params) (hreq : p.required = true)
    (hmiss : kwLookup kwargs p.name = none)
    (hothers : ∀ q ∈ params, q.name ≠ p.name →
      ∃ v, kwLookup kwargs q.name = some v ∧ validateValue q v = true) :
    baseToolRun params frun kwargs =
      ⟨false, none, some ("Missing required parameter: " ++ p.name)⟩ := by
  unfold baseToolRun
  rw [validateParameters_missing params kwargs p hmem hreq hmiss hothers]
  rfl

/-- The required string parameter of the witness tool. -/
def textParam : FieldSpec := ⟨"text", true, .stringT, none⟩

/-- C9 witness: a tool with required parameter `text` invoked with no
arguments fails validation naming `text`. -/
theorem claim9_witness :
    baseToolRun [textParam] (fun _ => "ran") [] =
      ⟨false, none, some ("Missing required parameter: " ++ textParam.name)⟩ :=
  claim9_missing_param_validation [textParam] (fun _ => "ran") [] textParam
    (List.mem_singleton.mpr rfl) rfl rfl
    (fun q hq hne => absurd (by rw [List.mem_singleton.mp hq]) hne)

/-- C10: when the loop exhausts its 10-turn budget (the `exhausted`
outcome), the configured output file is never written during the run —
the write trace is empty, so pre-existing content is untouched; the
only write sites are the two terminal-success paths. -/
theorem claim10_no_write_on_exhaustion (parse : String → Option PyExpr)
    (llm : Nat → String → String) (ag : AgentCfg) (task : String) (r : String)
    (h : (unleash parse llm ag task).outcome = .exhausted r) :
    (unleash parse llm ag task).outputWrites = [] :=
  agentTurns_exhausted_writes parse llm ag maxTurns 0 task r h

/-- C10 witness: an output-file-configured agent whose model always
requests an unknown tool exhausts the budget and writes nothing. -/
theorem claim10_witness :
    (unleash pyParseEval llmNop soloAgentOut "task").outputWrites = [] :=
  claim10_no_write_on_exhaustion pyParseEval llmNop soloAgentOut "task"
    "<tool>nop()</tool>" rfl

/-! ## Cross-checks of the parser and repair models on concrete sources

Each expected value below is what CPython 3.11 computes for the same
input (`ast.parse(mode='eval')` success, `_sanitize_tool_call`,
`re.findall`). -/

example : pyParses "add(a=1,b=2)" = true := by decide
example : pyParses "add(a=2, b=3)" = true := by decide
example : pyParses "f()" = true := by decide
example : pyParses "f(1, 2, \x22x\x22)" = true := by decide
example : pyParses "f(xs=[1, 2, \x27a\x27, True, None], d=\x7b\x27k\x27: 2\x7d)" = true := by decide
example : pyParses "obj.method(1)" = true := by decide
example : pyParses "a.b.c(x=1)" = true := by decide
example : pyParses "f(g(1))" = true := by decide
example : pyParses "f(a=foo)" = true := by decide
example : pyParses "True" = true := by decide
example : pyParses "None" = true := by decide
example : pyParses "[1, 2]" = true := by decide
example : pyParses "\x7b\x7d" = true := by decide
example : pyParses "[]" = true := by decide
example : pyParses "f(\x22it\x27s\x22)" = true := by decide
example : pyParses "f(\x22a\\nb\x22)" = true := by decide
example : pyParses "foo(" = false := by decide
example : pyParses "foo(\x22x" = false := by decide
example : pyParses ")(" = false := by decide
example : pyParses "((" = false := by decide
example : pyParses "f(a=1, 2)" = false := by decide
example : pyParses "f(a=1)(2)" = true := by decide
example : pyParses "12ab" = false := by decide
example : pyParses "" = false := by decide
example : pyParses "  f()" = false := by decide
example : pyParses "f()  " = true := by decide
example : pyParses "f() 42" = false := by decide
example : pyParses "f(\x22x) " = false := by decide
example : pyParses "f(\x27x\x22)" = false := by decide
example : pyParses "nop()" = true := by decide
example : pyParses "pass_result(result=\x22done\x22)" = true := by decide

example : sanitizeToolCall pyParses "write(text=\x22line1\nline2\x22)" = "write(text=\x22line1\\nline2\x22)" := by decide
example : sanitizeToolCall pyParses "f(1,\n  2)" = "f(1,\n  2)" := by decide
example : sanitizeToolCall pyParses "foo(\x22x\x22" = "foo(\x22x\x22)" := by decide
example : sanitizeToolCall pyParses "foo(\x22x" = "foo(\x22x\x22)" := by decide
example : sanitizeToolCall pyParses "\x60foo(1)\x60" = "foo(1)" := by decide
example : sanitizeToolCall pyParses "  add(a=1,b=2)  " = "add(a=1,b=2)" := by decide
example : sanitizeToolCall pyParses "foo() 42" = "foo() 42" := by decide
example : sanitizeToolCall pyParses "f(\x22a\x22, \x60junk" = "f(\x22a\x22, \x60junk" := by decide

example : extractAllToolCalls "<think>plan</think><tool>f(1)</tool> and <tool> g(2) </tool>" = ["f(1)", "g(2)"] := by decide
example : extractAllToolCalls "no tools here" = [] := by decide
example : extractAllToolCalls "<tool>unclosed" = [] := by decide
example : extractAllToolCalls "<tool>a<tool>b</tool><tool>c</tool>" = ["a<tool>b", "c"] := by decide
example : extractAllToolCalls "x<tool>\n f(\x22m\x22)\n</tool>y" = ["f(\x22m\x22)"] := by decide

example : pyStrip (stripThink "<think>abc</think>answer") = "answer" := by decide
example : pyStrip (stripThink "pre <think>a</think>mid<think>b</think> post") = "pre mid post" := by decide
example : pyStrip (stripThink "<think>open only") = "<think>open only" := by decide

/-! ## Cross-checks of dispatch, resolution and validation -/

example : (executeToolCall pyParseEval addAgent "add(a=2, b=3)").res = .text "5" := rfl

example : extractAllToolCalls "<tool>add(a=2, b=3)</tool>" = ["add(a=2, b=3)"] := by
  decide

example : (executeToolCall pyParseEval soloAgent "mystery(1)").res =
    .text "Error: tool 'mystery' not found." := rfl

example : (executeToolCall pyParseEval addAgent "add(a=g(1))").res =
    .text ("Error: " ++ litEvalFailText) := rfl

example : (executeToolCall pyParseEval rosterAgent
    "send_message(agent_name=\"Bob\", message=\"hi\")").res =
    .text "Message delivered to Bob." := rfl

example : (executeToolCall pyParseEval rosterAgent
    "send_message(agent_name=\"Zzyx\", message=\"hi\")").res =
    .text "Agent 'Zzyx' not found in clan." := rfl

example : (executeToolCall pyParseEval rosterAgent
    "send_message(agent_name=\"the Manager\", message=\"hi\")").events =
    [.delivered "Alice" "FROM: Alice | hi"] := rfl

example : getAgentByName rosterAgent "bob" = "Bob" := by decide

example : getAgentByName rosterAgent "BOB" = "Bob" := by decide

example : getAgentByName rosterAgent "Zzyx" = "Zzyx" := by decide

example : getAgentByName rosterAgent "ceo/manager" = "CEO/Manager" := by decide

example :
    validateParameters [⟨"n", true, .integerT, none⟩] [("n", .strV "x")] =
      ⟨false, none, some "Invalid type for parameter n: expected integer, got str"⟩ := by
  decide

example :
    validateParameters [⟨"n", true, .integerT, none⟩] [("n", .boolV true)] =
      ⟨true, some "Parameters validated successfully", none⟩ := by decide

example :
    baseToolRun [⟨"a", true, .stringT, none⟩, ⟨"b", false, .stringT, some (.strV "d")⟩]
      (fun kw => pyStr ((kwLookup kw "b").getD .noneV)) [("a", .strV "x")] =
      ⟨true, some "d", none⟩ := by decide
